import Mathlib

/-!
Shallow embedding of the `PgPersistence` repository class
(`src/lib/pg-persistence.js`) of the todos-express application.

The database is modelled as an explicit state: a table of todo-list rows
and a table of todo rows.  Each SQL statement issued by the class is
modelled by the corresponding pure transformation of that state, with the
affected-row count (`result.rowCount`) computed as the number of rows
matched by the statement's WHERE clause.  The repository's `this.username`
(set in the constructor from the session) is passed explicitly as the
first argument of every operation.
-/

/-- A row of the `todos` table: id, todolist_id (FK), title, done, username. -/
structure TodoRow where
  id : Nat
  todolist_id : Nat
  title : String
  done : Bool
  username : String
  deriving DecidableEq

/-- A row of the `todolists` table: id, title, username. -/
structure TodoListRow where
  id : Nat
  title : String
  username : String
  deriving DecidableEq

/-- A todo list as returned to callers: a `todolists` row together with the
`todos` attached by a follow-up query (the `todoList.todos = todos.rows`
assignment in the source). -/
structure TodoList where
  id : Nat
  title : String
  username : String
  todos : List TodoRow
  deriving DecidableEq

/-- The database state: both tables plus the sequences the database uses to
assign primary keys on INSERT. -/
structure DBState where
  todolists : List TodoListRow
  todos : List TodoRow
  nextTodoListId : Nat
  nextTodoId : Nat
  deriving DecidableEq

/-- WHERE clause `todolist_id = $1 AND id = $2 AND username = $3` used by
`loadTodo`, `toggleDoneTodo` and `deleteTodo`. -/
def todoMatches (username : String) (todoListId todoId : Nat) (t : TodoRow) : Bool :=
  t.todolist_id == todoListId && t.id == todoId && t.username == username

/-- WHERE clause `todolist_id = $1 AND username = $2` used by the todos query
of `loadTodoList`, by `sortedTodos` and by `completeAllTodos`. -/
def todoInList (username : String) (todoListId : Nat) (t : TodoRow) : Bool :=
  t.todolist_id == todoListId && t.username == username

/-- WHERE clause `id = $1 AND username = $2` used by `loadTodoList`,
`setTodoListTitle` and `deleteTodoList`. -/
def todoListMatches (username : String) (todoListId : Nat) (tl : TodoListRow) : Bool :=
  tl.id == todoListId && tl.username == username

/-- `isDoneTodoList(todoList)`:
`todoList.todos.length > 0 && todoList.todos.every(todo => todo.done)`. -/
def isDoneTodoList (todoList : TodoList) : Bool :=
  decide (todoList.todos.length > 0) && todoList.todos.all (fun todo => todo.done)

/-- The body of the `forEach` loop of `_partitionTodoLists`: push the list onto
`done` when `isDoneTodoList` holds, else onto `undone`.  The accumulator pair
is `(undone, done)`. -/
def partitionStep (acc : List TodoList × List TodoList) (todoList : TodoList) :
    List TodoList × List TodoList :=
  if isDoneTodoList todoList then (acc.1, acc.2 ++ [todoList])
  else (acc.1 ++ [todoList], acc.2)

/-- `_partitionTodoLists(todoLists)`: the `forEach` loop over the input filling
`undone` and `done`, then `undone.concat(done)`. -/
def _partitionTodoLists (todoLists : List TodoList) : List TodoList :=
  let acc := todoLists.foldl partitionStep ([], [])
  acc.1 ++ acc.2

/-- The SQL ordering `ORDER BY lower(title) ASC` of the `ALL_TODOLISTS`
statement, as a relation on `todolists` rows. -/
def lowerTitleLe (a b : TodoListRow) : Prop :=
  a.title.toLower ≤ b.title.toLower

instance : DecidableRel lowerTitleLe := fun a b =>
  inferInstanceAs (Decidable (a.title.toLower ≤ b.title.toLower))

instance : IsTotal TodoListRow lowerTitleLe :=
  ⟨fun a b => le_total a.title.toLower b.title.toLower⟩

instance : IsTrans TodoListRow lowerTitleLe :=
  ⟨fun _ _ _ hab hbc => le_trans hab hbc⟩

/-- The `FIND_TODOS` statement of `sortedTodoLists`
(`SELECT * FROM todos WHERE todolist_id = $1`, no username predicate) followed
by `todoList.todos = todos.rows`. -/
def attachTodos (s : DBState) (row : TodoListRow) : TodoList :=
  { id := row.id, title := row.title, username := row.username,
    todos := s.todos.filter (fun t => t.todolist_id == row.id) }

/-- `sortedTodoLists()`: `ALL_TODOLISTS` (rows of the user sorted by
`lower(title)`), attach each list's todos, then `_partitionTodoLists`. -/
def sortedTodoLists (username : String) (s : DBState) : List TodoList :=
  let rows :=
    List.insertionSort lowerTitleLe (s.todolists.filter (fun tl => tl.username == username))
  _partitionTodoLists (rows.map (attachTodos s))

/-- `loadTodoList(todoListId)`: `FIND_TODOLIST` row (or `undefined`), with the
user's todos of that list attached. -/
def loadTodoList (username : String) (todoListId : Nat) (s : DBState) : Option TodoList :=
  match (s.todolists.filter (todoListMatches username todoListId)).head? with
  | none => none
  | some row =>
      some { id := row.id, title := row.title, username := row.username,
             todos := s.todos.filter (todoInList username todoListId) }

/-- The SQL ordering `ORDER BY done ASC, lower(title) ASC` of the
`SORTED_TODOS` statement (`false` sorts before `true`). -/
def doneTitleLe (a b : TodoRow) : Prop :=
  a.done < b.done ∨ (a.done = b.done ∧ a.title.toLower ≤ b.title.toLower)

instance : DecidableRel doneTitleLe := fun _ _ =>
  inferInstanceAs (Decidable (_ ∨ _))

instance : IsTotal TodoRow doneTitleLe := by
  constructor
  intro a b
  by_cases h : a.done = b.done
  · rcases le_total a.title.toLower b.title.toLower with ht | ht
    · exact Or.inl (Or.inr ⟨h, ht⟩)
    · exact Or.inr (Or.inr ⟨h.symm, ht⟩)
  · rcases lt_or_gt_of_ne h with hlt | hgt
    · exact Or.inl (Or.inl hlt)
    · exact Or.inr (Or.inl hgt)

instance : IsTrans TodoRow doneTitleLe := by
  constructor
  intro a b c hab hbc
  rcases hab with hab | ⟨hab, hab'⟩
  · rcases hbc with hbc | ⟨hbc, _⟩
    · exact Or.inl (lt_trans hab hbc)
    · exact Or.inl (hbc ▸ hab)
  · rcases hbc with hbc | ⟨hbc, hbc'⟩
    · exact Or.inl (hab ▸ hbc)
    · exact Or.inr ⟨hab.trans hbc, le_trans hab' hbc'⟩

/-- `sortedTodos(todoList)`: the user's todos of the list, ordered by
`done ASC, lower(title) ASC`. -/
def sortedTodos (username : String) (s : DBState) (todoList : TodoList) : List TodoRow :=
  List.insertionSort doneTitleLe (s.todos.filter (todoInList username todoList.id))

/-- `loadTodo(todoListId, todoId)`: `result.rows[0]` of the `FIND_TODO`
statement (`undefined` when no row matches). -/
def loadTodo (username : String) (todoListId todoId : Nat) (s : DBState) : Option TodoRow :=
  (s.todos.filter (todoMatches username todoListId todoId)).head?

/-- Effect of `SET done = NOT done` on one row when the WHERE clause matches. -/
def toggleStep (username : String) (todoListId todoId : Nat) (t : TodoRow) : TodoRow :=
  if todoMatches username todoListId todoId t then { t with done := !t.done } else t

/-- `toggleDoneTodo(todoListId, todoId)`: the `TOGGLE_DONE` UPDATE; resolves to
`result.rowCount > 0`. -/
def toggleDoneTodo (username : String) (todoListId todoId : Nat) (s : DBState) :
    Bool × DBState :=
  (decide (0 < s.todos.countP (todoMatches username todoListId todoId)),
   { s with todos := s.todos.map (toggleStep username todoListId todoId) })

/-- `deleteTodo(todoListId, todoId)`: the `DELETE_TODO` statement; resolves to
`result.rowCount > 0`. -/
def deleteTodo (username : String) (todoListId todoId : Nat) (s : DBState) :
    Bool × DBState :=
  (decide (0 < s.todos.countP (todoMatches username todoListId todoId)),
   { s with todos := s.todos.filter (fun t => !(todoMatches username todoListId todoId t)) })

/-- `completeAllTodos(todoListId)`: the `MARK_DONE_ALL` UPDATE setting
`done = TRUE` on every matching row; resolves to `result.rowCount > 0`. -/
def completeAllTodos (username : String) (todoListId : Nat) (s : DBState) :
    Bool × DBState :=
  (decide (0 < s.todos.countP (todoInList username todoListId)),
   { s with todos := s.todos.map (fun t =>
       if todoInList username todoListId t then { t with done := true } else t) })

/-- `addTodo(todoListId, todoTitle)`: the `ADD_TODO` INSERT.  The statement has
no WHERE clause and performs no existence or ownership check on the target
list; the database assigns the new id and the `done` column defaults to false.
A one-row INSERT reports `rowCount = 1`, so the promise resolves to `true`. -/
def addTodo (username : String) (todoListId : Nat) (todoTitle : String) (s : DBState) :
    Bool × DBState :=
  let newTodo : TodoRow :=
    { id := s.nextTodoId, todolist_id := todoListId, title := todoTitle,
      done := false, username := username }
  (true, { s with todos := s.todos ++ [newTodo], nextTodoId := s.nextTodoId + 1 })

/-- `deleteTodoList(todoListId)`: the `DELETE_TODOLIST` statement; resolves to
`result.rowCount > 0`. -/
def deleteTodoList (username : String) (todoListId : Nat) (s : DBState) :
    Bool × DBState :=
  (decide (0 < s.todolists.countP (todoListMatches username todoListId)),
   { s with todolists := s.todolists.filter (fun tl => !(todoListMatches username todoListId tl)) })

/-- `existsTodoListTitle(title)`: the `EXISTS_TODOLIST` statement
(`WHERE title = $1 AND username = $2`, literal comparison); resolves to
`result.rowCount > 0`. -/
def existsTodoListTitle (username title : String) (s : DBState) : Bool :=
  decide (0 < s.todolists.countP (fun tl => tl.title == title && tl.username == username))

/-- Ordering property claimed of `sortedTodoLists`: no done list before an
undone one, and titles non-decreasing (lower-cased) between lists of the same
completion status. -/
def undoneBeforeDone (a b : TodoList) : Prop :=
  (isDoneTodoList a = true → isDoneTodoList b = true) ∧
  (isDoneTodoList a = isDoneTodoList b → a.title.toLower ≤ b.title.toLower)

/-- Ordering property claimed of `sortedTodos`: when `done` differs the undone
todo comes first, when it agrees the lower-cased titles are non-decreasing. -/
def undoneFirstThenTitle (a b : TodoRow) : Prop :=
  (a.done ≠ b.done → a.done = false) ∧
  (a.done = b.done → a.title.toLower ≤ b.title.toLower)

/-! ## Helper lemmas -/

theorem foldl_partitionStep (l : List TodoList) (u d : List TodoList) :
    l.foldl partitionStep (u, d) =
      (u ++ l.filter (fun tl => !isDoneTodoList tl),
       d ++ l.filter (fun tl => isDoneTodoList tl)) := by
  induction l generalizing u d with
  | nil => simp
  | cons a l ih =>
    cases h : isDoneTodoList a <;>
      simp [partitionStep, h, ih, List.filter_cons]

theorem partition_eq_filters (todoLists : List TodoList) :
    _partitionTodoLists todoLists =
      todoLists.filter (fun tl => !isDoneTodoList tl) ++
        todoLists.filter (fun tl => isDoneTodoList tl) := by
  simp [_partitionTodoLists, foldl_partitionStep]

/-! ## Claims -/

/-- Claim C1: `isDoneTodoList` returns true iff the list has at least one todo
and every todo is done; a list with zero todos is classified undone. -/
theorem isDoneTodoList_spec (todoList : TodoList) :
    (isDoneTodoList todoList = true ↔
      todoList.todos ≠ [] ∧ ∀ t ∈ todoList.todos, t.done = true) ∧
    (todoList.todos = [] → isDoneTodoList todoList = false) := by
  constructor
  · simp [isDoneTodoList, List.all_eq_true, List.length_pos]
  · intro h
    simp [isDoneTodoList, h]

theorem isDoneTodoList_spec_witness :
    isDoneTodoList { id := 0, title := "a", username := "u", todos := [] } = false :=
  (isDoneTodoList_spec { id := 0, title := "a", username := "u", todos := [] }).2 rfl

/-- Claim C4: the output of `_partitionTodoLists` is a permutation of its
input, containing every input list exactly as often as the input does. -/
theorem partitionTodoLists_perm (todoLists : List TodoList) :
    (_partitionTodoLists todoLists).Perm todoLists ∧
      ∀ tl : TodoList, (_partitionTodoLists todoLists).count tl = todoLists.count tl := by
  have hperm : (_partitionTodoLists todoLists).Perm todoLists := by
    rw [partition_eq_filters]
    have h := List.filter_append_perm (fun tl => !isDoneTodoList tl) todoLists
    simpa using h
  exact ⟨hperm, fun tl => hperm.count_eq tl⟩

/-- Claim C5: in the result of `sortedTodos`, whenever two todos differ on
`done` the undone one comes first, and whenever they agree their lower-cased
titles are in non-decreasing order. -/
theorem sortedTodos_ordering (username : String) (s : DBState) (todoList : TodoList) :
    List.Pairwise undoneFirstThenTitle (sortedTodos username s todoList) := by
  have hs : List.Sorted doneTitleLe (sortedTodos username s todoList) :=
    List.sorted_insertionSort doneTitleLe _
  refine List.Pairwise.imp ?_ hs
  intro a b hab
  rcases hab with hlt | ⟨he, ht⟩
  · rw [Bool.lt_iff] at hlt
    exact ⟨fun _ => hlt.1, fun h => absurd h (by simp [hlt.1, hlt.2])⟩
  · exact ⟨fun hne => absurd he hne, fun _ => ht⟩

/-- Claim C9: `existsTodoListTitle` is true iff the user has a list whose
title equals the given title literally (case-sensitively). -/
theorem existsTodoListTitle_iff (u title : String) (s : DBState) :
    existsTodoListTitle u title s = true ↔
      ∃ tl ∈ s.todolists, tl.title = title ∧ tl.username = u := by
  simp [existsTodoListTitle, List.countP_pos_iff]

theorem pairwise_lowerTitle_partition (L : List TodoList)
    (h : L.Pairwise (fun a b => a.title.toLower ≤ b.title.toLower)) :
    List.Pairwise undoneBeforeDone (_partitionTodoLists L) := by
  rw [partition_eq_filters]
  apply List.pairwise_append.mpr
  refine ⟨?_, ?_, ?_⟩
  · refine List.Pairwise.imp_of_mem ?_
      (h.sublist (List.filter_sublist L))
    intro a b ha _ hab
    have haF : isDoneTodoList a = false := by
      simpa using (List.mem_filter.mp ha).2
    refine ⟨fun hT => ?_, fun _ => hab⟩
    rw [haF] at hT
    simp at hT
  · refine List.Pairwise.imp_of_mem ?_
      (h.sublist (List.filter_sublist L))
    intro a b _ hb hab
    have hbT : isDoneTodoList b = true := by
      simpa using (List.mem_filter.mp hb).2
    exact ⟨fun _ => hbT, fun _ => hab⟩
  · intro a ha b hb
    have haF : isDoneTodoList a = false := by
      simpa using (List.mem_filter.mp ha).2
    have hbT : isDoneTodoList b = true := by
      simpa using (List.mem_filter.mp hb).2
    refine ⟨fun hT => ?_, fun he => ?_⟩
    · rw [haF] at hT
      simp at hT
    · rw [haF, hbT] at he
      simp at he

/-- Claim C3: `sortedTodoLists` yields every undone list before every done
list, and within each completion group the lower-cased titles are in
non-decreasing order. -/
theorem sortedTodoLists_ordering (username : String) (s : DBState) :
    List.Pairwise undoneBeforeDone (sortedTodoLists username s) := by
  apply pairwise_lowerTitle_partition
  have hs : List.Sorted lowerTitleLe
      (List.insertionSort lowerTitleLe
        (s.todolists.filter (fun tl => tl.username == username))) :=
    List.sorted_insertionSort lowerTitleLe _
  rw [List.pairwise_map]
  exact List.Pairwise.imp (fun hab => hab) hs

theorem todoMatches_set_done (u : String) (lid tid : Nat) (t : TodoRow) (d : Bool) :
    todoMatches u lid tid { t with done := d } = todoMatches u lid tid t := rfl

theorem filter_matches_map_toggleStep (u : String) (lid tid : Nat) (l : List TodoRow) :
    (l.map (toggleStep u lid tid)).filter (todoMatches u lid tid) =
      (l.filter (todoMatches u lid tid)).map (fun t => { t with done := !t.done }) := by
  induction l with
  | nil => rfl
  | cons a l ih =>
    cases h : todoMatches u lid tid a
    · simp [toggleStep, h, ih, List.filter_cons]
    · simp [toggleStep, h, todoMatches_set_done, ih, List.filter_cons]

theorem loadTodo_toggleDoneTodo (u : String) (lid tid : Nat) (s : DBState) :
    loadTodo u lid tid (toggleDoneTodo u lid tid s).2 =
      (loadTodo u lid tid s).map (fun t => { t with done := !t.done }) := by
  simp [loadTodo, toggleDoneTodo, filter_matches_map_toggleStep, List.head?_map]

/-- Claim C6: toggling an existing todo negates its `done` column, and toggling
it twice restores the original value. -/
theorem toggleDoneTodo_self_inverse (u : String) (lid tid : Nat) (s : DBState)
    (t : TodoRow) (h : loadTodo u lid tid s = some t) :
    loadTodo u lid tid (toggleDoneTodo u lid tid s).2 =
      some { t with done := !t.done } ∧
    loadTodo u lid tid (toggleDoneTodo u lid tid (toggleDoneTodo u lid tid s).2).2 =
      some t := by
  constructor
  · rw [loadTodo_toggleDoneTodo, h]
    rfl
  · rw [loadTodo_toggleDoneTodo, loadTodo_toggleDoneTodo, h]
    cases t
    simp

theorem toggleDoneTodo_self_inverse_witness :
    loadTodo "a" 1 2 (toggleDoneTodo "a" 1 2
        { todolists := [{ id := 1, title := "l", username := "a" }],
          todos := [{ id := 2, todolist_id := 1, title := "b", done := false, username := "a" }],
          nextTodoListId := 2, nextTodoId := 3 }).2 =
      some { id := 2, todolist_id := 1, title := "b", done := true, username := "a" } ∧
    loadTodo "a" 1 2 (toggleDoneTodo "a" 1 2 (toggleDoneTodo "a" 1 2
        { todolists := [{ id := 1, title := "l", username := "a" }],
          todos := [{ id := 2, todolist_id := 1, title := "b", done := false, username := "a" }],
          nextTodoListId := 2, nextTodoId := 3 }).2).2 =
      some { id := 2, todolist_id := 1, title := "b", done := false, username := "a" } :=
  toggleDoneTodo_self_inverse "a" 1 2
    { todolists := [{ id := 1, title := "l", username := "a" }],
      todos := [{ id := 2, todolist_id := 1, title := "b", done := false, username := "a" }],
      nextTodoListId := 2, nextTodoId := 3 }
    { id := 2, todolist_id := 1, title := "b", done := false, username := "a" }
    (by decide)

/-- Claim C10: `toggleDoneTodo` leaves the `todolists` table unchanged and
rewrites the `todos` table row-for-row, keeping id, title, todolist_id and
username of every row, negating `done` exactly on the rows matched by the
WHERE clause and preserving `done` on all others. -/
theorem toggleDoneTodo_frame (u : String) (lid tid : Nat) (s : DBState) :
    (toggleDoneTodo u lid tid s).2.todolists = s.todolists ∧
    List.Forall₂ (fun t tAfter =>
        tAfter.id = t.id ∧ tAfter.title = t.title ∧
        tAfter.todolist_id = t.todolist_id ∧ tAfter.username = t.username ∧
        tAfter.done = cond (todoMatches u lid tid t) (!t.done) t.done)
      s.todos (toggleDoneTodo u lid tid s).2.todos := by
  refine ⟨rfl, ?_⟩
  have hmap : (toggleDoneTodo u lid tid s).2.todos =
      s.todos.map (toggleStep u lid tid) := rfl
  rw [hmap, List.forall₂_map_right_iff, List.forall₂_same]
  intro t _
  cases h : todoMatches u lid tid t <;> simp [toggleStep, h]

theorem loadTodoList_eq_none_iff (u : String) (lid : Nat) (s : DBState) :
    loadTodoList u lid s = none ↔
      (s.todolists.filter (todoListMatches u lid)).head? = none := by
  cases h : (s.todolists.filter (todoListMatches u lid)).head? <;>
    simp [loadTodoList, h]

/-- Claim C7: deleting a nonexistent todo (resp. todo list) returns `false`
and leaves the state unchanged; deleting at all makes a subsequent load of the
target return `none`, and deleting an existing one returns `true`. -/
theorem delete_spec (u : String) (lid tid : Nat) (s : DBState) :
    (loadTodo u lid tid s = none → deleteTodo u lid tid s = (false, s)) ∧
    (loadTodo u lid tid s ≠ none → (deleteTodo u lid tid s).1 = true) ∧
    loadTodo u lid tid (deleteTodo u lid tid s).2 = none ∧
    (loadTodoList u lid s = none → deleteTodoList u lid s = (false, s)) ∧
    (loadTodoList u lid s ≠ none → (deleteTodoList u lid s).1 = true) ∧
    loadTodoList u lid (deleteTodoList u lid s).2 = none := by
  refine ⟨?_, ?_, ?_, ?_, ?_, ?_⟩
  · intro h
    rw [loadTodo, List.head?_eq_none_iff, List.filter_eq_nil_iff] at h
    have hc : s.todos.countP (todoMatches u lid tid) = 0 :=
      List.countP_eq_zero.mpr h
    have hf : s.todos.filter (fun t => !(todoMatches u lid tid t)) = s.todos :=
      List.filter_eq_self.mpr (fun a ha => by simp [h a ha])
    simp [deleteTodo, hc, hf]
  · intro h
    rw [loadTodo, Ne, List.head?_eq_none_iff, ← Ne] at h
    obtain ⟨a, ha⟩ := List.exists_mem_of_ne_nil _ h
    have := List.mem_filter.mp ha
    simp only [deleteTodo, decide_eq_true_iff]
    exact List.countP_pos_iff.mpr ⟨a, this.1, this.2⟩
  · simp only [loadTodo, deleteTodo, List.filter_filter]
    rw [List.head?_eq_none_iff, List.filter_eq_nil_iff]
    intro a _
    cases todoMatches u lid tid a <;> simp
  · intro h
    rw [loadTodoList_eq_none_iff, List.head?_eq_none_iff, List.filter_eq_nil_iff] at h
    have hc : s.todolists.countP (todoListMatches u lid) = 0 :=
      List.countP_eq_zero.mpr h
    have hf : s.todolists.filter (fun tl => !(todoListMatches u lid tl)) = s.todolists :=
      List.filter_eq_self.mpr (fun a ha => by simp [h a ha])
    simp [deleteTodoList, hc, hf]
  · intro h
    rw [Ne, loadTodoList_eq_none_iff, List.head?_eq_none_iff, ← Ne] at h
    obtain ⟨a, ha⟩ := List.exists_mem_of_ne_nil _ h
    have := List.mem_filter.mp ha
    simp only [deleteTodoList, decide_eq_true_iff]
    exact List.countP_pos_iff.mpr ⟨a, this.1, this.2⟩
  · rw [loadTodoList_eq_none_iff]
    simp only [deleteTodoList, List.filter_filter]
    rw [List.head?_eq_none_iff, List.filter_eq_nil_iff]
    intro a _
    cases todoListMatches u lid a <;> simp

theorem delete_spec_witness :
    deleteTodo "a" 1 2 { todolists := [], todos := [], nextTodoListId := 1, nextTodoId := 1 } =
      (false, { todolists := [], todos := [], nextTodoListId := 1, nextTodoId := 1 }) ∧
    (deleteTodo "a" 1 2
        { todolists := [{ id := 1, title := "l", username := "a" }],
          todos := [{ id := 2, todolist_id := 1, title := "b", done := false, username := "a" }],
          nextTodoListId := 2, nextTodoId := 3 }).1 = true ∧
    deleteTodoList "a" 1 { todolists := [], todos := [], nextTodoListId := 1, nextTodoId := 1 } =
      (false, { todolists := [], todos := [], nextTodoListId := 1, nextTodoId := 1 }) ∧
    (deleteTodoList "a" 1
        { todolists := [{ id := 1, title := "l", username := "a" }],
          todos := [{ id := 2, todolist_id := 1, title := "b", done := false, username := "a" }],
          nextTodoListId := 2, nextTodoId := 3 }).1 = true :=
  ⟨(delete_spec "a" 1 2
      { todolists := [], todos := [], nextTodoListId := 1, nextTodoId := 1 }).1 (by decide),
   (delete_spec "a" 1 2
      { todolists := [{ id := 1, title := "l", username := "a" }],
        todos := [{ id := 2, todolist_id := 1, title := "b", done := false, username := "a" }],
        nextTodoListId := 2, nextTodoId := 3 }).2.1 (by decide),
   (delete_spec "a" 1 2
      { todolists := [], todos := [], nextTodoListId := 1, nextTodoId := 1 }).2.2.2.1 (by decide),
   (delete_spec "a" 1 2
      { todolists := [{ id := 1, title := "l", username := "a" }],
        todos := [{ id := 2, todolist_id := 1, title := "b", done := false, username := "a" }],
        nextTodoListId := 2, nextTodoId := 3 }).2.2.2.2.1 (by decide)⟩

/-- Claim C8: `completeAllTodos` resolves to true iff at least one todo row of
that list for the repository's user is affected; on a list that exists but has
no todos it resolves to false. -/
theorem completeAllTodos_spec (u : String) (lid : Nat) (s : DBState) :
    ((completeAllTodos u lid s).1 = true ↔
      ∃ t ∈ s.todos, t.todolist_id = lid ∧ t.username = u) ∧
    ((∃ tl ∈ s.todolists, tl.id = lid ∧ tl.username = u) →
      (∀ t ∈ s.todos, ¬(t.todolist_id = lid ∧ t.username = u)) →
      (completeAllTodos u lid s).1 = false) := by
  have hiff : (completeAllTodos u lid s).1 = true ↔
      ∃ t ∈ s.todos, t.todolist_id = lid ∧ t.username = u := by
    simp [completeAllTodos, List.countP_pos_iff, todoInList]
  refine ⟨hiff, fun _ hnone => ?_⟩
  rw [Bool.eq_false_iff]
  intro hT
  obtain ⟨t, ht, hid, hu⟩ := hiff.mp hT
  exact hnone t ht ⟨hid, hu⟩

theorem completeAllTodos_spec_witness :
    (completeAllTodos "a" 1
        { todolists := [{ id := 1, title := "l", username := "a" }],
          todos := [], nextTodoListId := 2, nextTodoId := 1 }).1 = false :=
  (completeAllTodos_spec "a" 1
      { todolists := [{ id := 1, title := "l", username := "a" }],
        todos := [], nextTodoListId := 2, nextTodoId := 1 }).2
    ⟨{ id := 1, title := "l", username := "a" }, by simp, rfl, rfl⟩
    (by simp)

/-- Claim C2 counterexample: on an empty database `addTodo` nevertheless
resolves to true and inserts a todo whose `todolist_id` references no todo
list at all, so the insert is not guarded by existence or ownership of the
target list and the referential invariant is broken by the repository alone. -/
theorem addTodo_unguarded_counterexample :
    (addTodo "a" 5 "m"
        { todolists := [], todos := [], nextTodoListId := 1, nextTodoId := 1 }).1 = true ∧
    (∃ t ∈ (addTodo "a" 5 "m"
        { todolists := [], todos := [], nextTodoListId := 1, nextTodoId := 1 }).2.todos,
      t.todolist_id = 5 ∧ t.username = "a") ∧
    (addTodo "a" 5 "m"
        { todolists := [], todos := [], nextTodoListId := 1, nextTodoId := 1 }).2.todolists
      = [] := by
  refine ⟨rfl, ?_, rfl⟩
  exact ⟨{ id := 1, todolist_id := 5, title := "m", done := false, username := "a" },
    by simp [addTodo], rfl, rfl⟩

/-- Claim C2 (amended): `addTodo` performs no existence or ownership check:
even when the user has no todo list with the given id, it still resolves to
true and inserts a todo carrying the repository's username and the given
`todolist_id`, while the `todolists` table retains no matching list — the
referential invariant is delegated to the database schema, not enforced by the
repository's statements. -/
theorem addTodo_unconditional (u : String) (lid : Nat) (title : String) (s : DBState)
    (h : loadTodoList u lid s = none) :
    (addTodo u lid title s).1 = true ∧
    (∃ t ∈ (addTodo u lid title s).2.todos, t.todolist_id = lid ∧ t.username = u) ∧
    ∀ tl ∈ (addTodo u lid title s).2.todolists, ¬(tl.id = lid ∧ tl.username = u) := by
  rw [loadTodoList_eq_none_iff, List.head?_eq_none_iff, List.filter_eq_nil_iff] at h
  refine ⟨rfl, ?_, ?_⟩
  · exact ⟨{ id := s.nextTodoId, todolist_id := lid, title := title,
             done := false, username := u },
      by simp [addTodo], rfl, rfl⟩
  · intro tl htl ⟨hid, hu⟩
    have : (addTodo u lid title s).2.todolists = s.todolists := rfl
    rw [this] at htl
    exact h tl htl (by simp [todoListMatches, hid, hu])

theorem addTodo_unconditional_witness :
    (addTodo "a" 5 "m"
        { todolists := [], todos := [], nextTodoListId := 1, nextTodoId := 1 }).1 = true ∧
    (∃ t ∈ (addTodo "a" 5 "m"
        { todolists := [], todos := [], nextTodoListId := 1, nextTodoId := 1 }).2.todos,
      t.todolist_id = 5 ∧ t.username = "a") ∧
    ∀ tl ∈ (addTodo "a" 5 "m"
        { todolists := [], todos := [], nextTodoListId := 1, nextTodoId := 1 }).2.todolists,
      ¬(tl.id = 5 ∧ tl.username = "a") :=
  addTodo_unconditional "a" 5 "m"
    { todolists := [], todos := [], nextTodoListId := 1, nextTodoId := 1 } (by decide)
